import Mathlib

/-! Shallow embedding of src/macb_uio.c (Phytium MACB UIO platform driver).

The driver exposes a platform device's memory resources through the UIO
framework.  The embedded parts are:

* `macb_uio_setup_iomem` / `macb_uio_release_iomem` — region mapping and
  teardown over the fixed `MAX_UIO_MAPS` resource slots;
* `macb_uio_open` / `macb_uio_release` — the reference-counted session
  operations gating the single polling kthread;
* `macb_uio_remove` — the removal path.

Machine pointers are modelled as `Option Nat` (`none` = NULL), the atomic
reference count as `Int` (`atomic_inc_return` / `atomic_dec_and_test` return
the post-update value, inspected against 0 and 1), and the external
`ioremap` primitive as a function parameter `Nat → Nat → Option Nat`
returning `none` on mapping failure.  The resource table produced by
`platform_get_resource` for indices `0 .. MAX_UIO_MAPS-1` is modelled as a
`List (Option Resource)` (`none` = absent slot). -/

namespace MacbUio

/-- Page size used by `PAGE_MASK` / `PAGE_ALIGN` (4 KiB pages). -/
def PAGE_SIZE : Nat := 4096

/-- Maximum number of UIO memory maps (linux/uio_driver.h). -/
def MAX_UIO_MAPS : Nat := 5

/-- errno value ENOENT; `macb_uio_setup_iomem` returns `-ENOENT`. -/
def ENOENT : Int := 2

/-- errno value EINVAL; `macb_uio_remove` returns `-EINVAL` when no
driver data is attached. -/
def EINVAL : Int := 22

/-- UIO_MEM_PHYS memory type tag (linux/uio_driver.h). -/
def UIO_MEM_PHYS : Nat := 1

/-- Model of `addr & PAGE_MASK`: truncate down to the page boundary. -/
def pageTrunc (a : Nat) : Nat := a - a % PAGE_SIZE

/-- Model of `PAGE_ALIGN(n)`: round up to a multiple of the page size. -/
def pageAlign (n : Nat) : Nat := (n + PAGE_SIZE - 1) / PAGE_SIZE * PAGE_SIZE

/-- One present platform memory resource: `res->start` and
`resource_size(res)`. -/
structure Resource where
  start : Nat
  size : Nat
deriving Repr, DecidableEq

/-- One entry of `info->mem[]` as filled by `macb_uio_setup_iomem`.
`internal_addr` is the `ioremap` result (`none` = NULL). -/
structure UioMem where
  memtype : Nat
  addr : Nat
  size : Nat
  name : String
  internal_addr : Option Nat
deriving Repr, DecidableEq

/-- A value stored in `udev->poll_task`: either a created kthread (with a
flag telling whether its poll loop is currently running) or the `ERR_PTR`
returned by a failed `kthread_create`. -/
inductive Handle where
  | task (running : Bool)
  | errPtr
deriving Repr, DecidableEq

/-- Session state of `struct rte_uio_platform_dev`: the atomic `refcnt`
and the `poll_task` pointer (`none` = NULL, as left by `kzalloc`). -/
structure UdevState where
  refcnt : Int
  poll_task : Option Handle
deriving Repr, DecidableEq

/-- State after `macb_uio_probe` initialises the session:
`atomic_set(&udev->refcnt, 0)` and a NULL `poll_task` from `kzalloc`. -/
def initState : UdevState := { refcnt := 0, poll_task := none }

/-- Model of `macb_uio_open`.  `atomic_inc_return(&udev->refcnt)` yields
`s.refcnt + 1`; if it differs from 1 the function returns 0 at once.
Otherwise it stores the `kthread_create` result (the created task when
creation succeeds — `createOk` — or an `ERR_PTR` otherwise) into
`poll_task`, wakes the task, and returns 0.  The C code never inspects the
`kthread_create` result, so the return value is 0 on every path. -/
def macb_uio_open (createOk : Bool) (s : UdevState) : Int × UdevState :=
  let r := s.refcnt + 1
  if r ≠ 1 then
    (0, { s with refcnt := r })
  else
    (0, { refcnt := r,
          poll_task := some (if createOk then Handle.task true else Handle.errPtr) })

/-- Effect of `kthread_stop` on the stored `poll_task` value: the poll loop
of a created task observes `kthread_should_stop` and exits (join), but the
pointer itself is untouched. -/
def kthread_stop : Option Handle → Option Handle
  | some (Handle.task _) => some (Handle.task false)
  | h => h

/-- Model of `macb_uio_release`.  `atomic_dec_and_test(&udev->refcnt)`
yields `s.refcnt - 1` and tests it against 0; only in that case is
`kthread_stop(udev->poll_task)` called.  The function returns 0 always;
`udev->poll_task` is never set back to NULL. -/
def macb_uio_release (s : UdevState) : Int × UdevState :=
  let r := s.refcnt - 1
  if r = 0 then
    (0, { refcnt := r, poll_task := kthread_stop s.poll_task })
  else
    (0, { s with refcnt := r })

/-- One consumer-visible session operation: a file open (with the fate of
its possible `kthread_create`) or a file release. -/
inductive Op where
  | openCall (createOk : Bool)
  | closeCall
deriving Repr, DecidableEq

/-- State transition of a single session operation. -/
def step (op : Op) (s : UdevState) : UdevState :=
  match op with
  | Op.openCall ok => (macb_uio_open ok s).2
  | Op.closeCall => (macb_uio_release s).2

/-- Run a sequence of session operations from a state. -/
def runOps : List Op → UdevState → UdevState
  | [], s => s
  | op :: rest, s => runOps rest (step op s)

/-- State reached after the first `t` operations of `ops`, starting from
the freshly probed state. -/
def stateAt (ops : List Op) (t : Nat) : UdevState := runOps (ops.take t) initState

/-- Whether a poll worker is currently running in state `s`. -/
def workerRunning (s : UdevState) : Bool :=
  decide (s.poll_task = some (Handle.task true))

/-- Whether every open in the sequence has a succeeding `kthread_create`. -/
def allCreatesOk : List Op → Bool
  | [] => true
  | Op.openCall ok :: rest => ok && allCreatesOk rest
  | Op.closeCall :: rest => allCreatesOk rest

/-- Whether an operation is an open call. -/
def isOpenCall : Op → Bool
  | Op.openCall _ => true
  | Op.closeCall => false

/-- Step `t` of `ops` (run from the fresh state) reaches the
`kthread_create` branch: it is an open whose post-increment value is 1,
i.e. whose pre-state count is 0. -/
def createsWorkerAt (ops : List Op) (t : Nat) : Bool :=
  decide (t < ops.length) && isOpenCall (ops.getD t Op.closeCall) &&
    decide ((stateAt ops t).refcnt = 0)

/-- The `info->mem[iom]` entry built for one present resource slot:
page-truncated address, page-aligned size, and the `ioremap` result. -/
def mkMem (f : Nat → Nat → Option Nat) (res : Resource) : UioMem :=
  { memtype := UIO_MEM_PHYS
    addr := pageTrunc res.start
    size := pageAlign res.size
    name := "macb_regs"
    internal_addr := f (pageTrunc res.start) (pageAlign res.size) }

/-- The slot loop of `macb_uio_setup_iomem`: absent slots are skipped by
`continue`; every present slot fills `info->mem[iom]` and increments
`iom`, whether or not its `ioremap` succeeded. -/
def setupLoop (f : Nat → Nat → Option Nat) : List (Option Resource) → List UioMem
  | [] => []
  | none :: rest => setupLoop f rest
  | some res :: rest => mkMem f res :: setupLoop f rest

/-- Model of `macb_uio_setup_iomem`: run the slot loop; return the filled
entries if `iom != 0`, else `-ENOENT`. -/
def macb_uio_setup_iomem (f : Nat → Nat → Option Nat)
    (slots : List (Option Resource)) : Except Int (List UioMem) :=
  let mems := setupLoop f slots
  if mems.length ≠ 0 then Except.ok mems else Except.error (-ENOENT)

/-- Model of `macb_uio_release_iomem`: walk `info->mem[]`, calling
`iounmap` on every non-NULL `internal_addr`.  Returns the list of pointers
passed to `iounmap` (in slot order) and the resulting array — the loop
never writes `internal_addr`, so the array is returned as it was. -/
def macb_uio_release_iomem : List UioMem → List Nat × List UioMem
  | [] => ([], [])
  | m :: rest =>
    let r := macb_uio_release_iomem rest
    match m.internal_addr with
    | some p => (p :: r.1, m :: r.2)
    | none => (r.1, m :: r.2)

/-- Driver data of one device: the filled `info->mem[]` table and the
session state. -/
structure Udev where
  mem : List UioMem
  session : UdevState
deriving Repr, DecidableEq

/-- Externally visible teardown actions of `macb_uio_remove`. -/
inductive Action where
  | closeCall
  | sysfsRemoveGroup
  | uioUnregister
  | iounmapCall (p : Nat)
  | kfreeCall
deriving Repr, DecidableEq

/-- Model of `macb_uio_remove`.  With no driver data attached it returns
`-EINVAL` and performs nothing.  Otherwise it unconditionally calls
`macb_uio_release(&udev->info, NULL)`, removes the sysfs group,
unregisters the uio device, runs `macb_uio_release_iomem`, clears the
driver data and frees the record; the action list records these effects in
program order. -/
def macb_uio_remove : Option Udev → Int × List Action
  | none => (-EINVAL, [])
  | some udev =>
    (0, Action.closeCall :: Action.sysfsRemoveGroup :: Action.uioUnregister ::
        ((macb_uio_release_iomem udev.mem).1.map Action.iounmapCall ++
          [Action.kfreeCall]))

/-! Helper lemmas shared across claims. -/

/-- Elimination of the slot loop: its output is the `mkMem` image of the
present slots in order. -/
theorem setupLoop_eq_map (f : Nat → Nat → Option Nat) :
    ∀ slots : List (Option Resource),
      setupLoop f slots = (slots.filterMap id).map (mkMem f)
  | [] => rfl
  | none :: rest => by
      simp [setupLoop, List.filterMap_cons, setupLoop_eq_map f rest]
  | some res :: rest => by
      simp [setupLoop, List.filterMap_cons, setupLoop_eq_map f rest]

/-- The slot loop fills one entry per present slot. -/
theorem setupLoop_length (f : Nat → Nat → Option Nat)
    (slots : List (Option Resource)) :
    (setupLoop f slots).length = (slots.filterMap id).length := by
  simp [setupLoop_eq_map]

/-- The entry at index `i` of the slot-loop output is the `mkMem` image
of the `i`-th present slot. -/
theorem setupLoop_get (f : Nat → Nat → Option Nat) :
    ∀ (slots : List (Option Resource)) (i : Nat)
      (hi : i < (setupLoop f slots).length)
      (hp : i < (slots.filterMap id).length),
      (setupLoop f slots).get ⟨i, hi⟩ =
        mkMem f ((slots.filterMap id).get ⟨i, hp⟩)
  | [], i, hi, _ => by simp [setupLoop] at hi
  | none :: rest, i, hi, hp => setupLoop_get f rest i hi hp
  | some _ :: _, 0, _, _ => rfl
  | some _ :: rest, i + 1, hi, hp =>
      setupLoop_get f rest i (Nat.lt_of_succ_lt_succ hi)
        (Nat.lt_of_succ_lt_succ hp)

/-- Setup succeeds exactly with the loop output, and only when the loop
filled at least one entry. -/
theorem setup_ok_iff (f : Nat → Nat → Option Nat)
    (slots : List (Option Resource)) (mems : List UioMem) :
    macb_uio_setup_iomem f slots = Except.ok mems ↔
      setupLoop f slots = mems ∧ setupLoop f slots ≠ [] := by
  unfold macb_uio_setup_iomem
  by_cases hL : setupLoop f slots = []
  · simp [hL]
  · have hlen : (setupLoop f slots).length ≠ 0 := by
      simpa [List.length_eq_zero] using hL
    simp [hlen, hL]

/-- `kthread_stop` does not clear the stored pointer. -/
theorem kthread_stop_isSome (h : Option Handle) :
    (kthread_stop h).isSome = h.isSome := by
  cases h with
  | none => rfl
  | some hh => cases hh <;> rfl

/-- `macb_uio_release_iomem` returns the `info->mem[]` array unchanged. -/
theorem release_iomem_snd :
    ∀ mems : List UioMem, (macb_uio_release_iomem mems).2 = mems
  | [] => rfl
  | m :: rest => by
      cases hm : m.internal_addr <;>
        simp [macb_uio_release_iomem, hm, release_iomem_snd rest]

/-- The pointers handed to `iounmap` are exactly the non-NULL
`internal_addr` fields, in slot order. -/
theorem release_iomem_fst :
    ∀ mems : List UioMem,
      (macb_uio_release_iomem mems).1 = mems.filterMap UioMem.internal_addr
  | [] => rfl
  | m :: rest => by
      cases hm : m.internal_addr <;>
        simp [macb_uio_release_iomem, hm, List.filterMap_cons,
          release_iomem_fst rest]

/-- An open at a non-zero count only bumps the count. -/
theorem open_step_ne_zero (ok : Bool) (s : UdevState) (h : s.refcnt ≠ 0) :
    step (Op.openCall ok) s = { s with refcnt := s.refcnt + 1 } := by
  have h1 : s.refcnt + 1 ≠ 1 := by omega
  simp [step, macb_uio_open, h1]

/-- An open at count 0 stores the `kthread_create` result and bumps the
count to 1. -/
theorem open_step_zero (ok : Bool) (s : UdevState) (h : s.refcnt = 0) :
    step (Op.openCall ok) s =
      { refcnt := 1,
        poll_task := some (if ok then Handle.task true else Handle.errPtr) } := by
  simp [macb_uio_open, step, h]

/-- A close at count 1 drops the count to 0 and stops the worker. -/
theorem close_step_one (s : UdevState) (h : s.refcnt = 1) :
    step Op.closeCall s =
      { refcnt := 0, poll_task := kthread_stop s.poll_task } := by
  simp [step, macb_uio_release, h]

/-- A close at a count other than 1 only drops the count. -/
theorem close_step_ne_one (s : UdevState) (h : s.refcnt ≠ 1) :
    step Op.closeCall s = { s with refcnt := s.refcnt - 1 } := by
  have h1 : ¬ (s.refcnt - 1 = 0) := by omega
  simp [step, macb_uio_release, h1]

/-- After `kthread_stop`, no stored value denotes a running worker. -/
theorem kthread_stop_not_running (h : Option Handle) :
    decide (kthread_stop h = some (Handle.task true)) = false := by
  cases h with
  | none => rfl
  | some hh => cases hh <;> rfl

/-- Invariant preservation: along any operation sequence whose worker
creations all succeed, running-iff-positive is preserved by every step. -/
theorem running_inv (ops : List Op) :
    ∀ s : UdevState, allCreatesOk ops = true →
      (workerRunning s = true ↔ 0 < s.refcnt) →
      (workerRunning (runOps ops s) = true ↔ 0 < (runOps ops s).refcnt) := by
  induction ops with
  | nil => exact fun s _ hs => hs
  | cons op rest ih =>
    intro s hok hs
    simp only [runOps]
    cases op with
    | openCall ok =>
      simp only [allCreatesOk, Bool.and_eq_true] at hok
      obtain ⟨hok1, hok2⟩ := hok
      subst hok1
      apply ih _ hok2
      by_cases h0 : s.refcnt = 0
      · rw [open_step_zero true s h0]
        simp [workerRunning]
      · rw [open_step_ne_zero true s h0]
        simp only [workerRunning] at hs ⊢
        constructor
        · intro hr
          have := hs.mp hr
          omega
        · intro hr
          exact hs.mpr (by omega)
    | closeCall =>
      apply ih _ (by simpa [allCreatesOk] using hok)
      by_cases h1 : s.refcnt = 1
      · rw [close_step_one s h1]
        simp only [workerRunning, kthread_stop_not_running]
        simp [h1]
      · rw [close_step_ne_one s h1]
        simp only [workerRunning] at hs ⊢
        constructor
        · intro hr
          have := hs.mp hr
          omega
        · intro hr
          exact hs.mpr (by omega)

/-! Claim C1 -/

/-- Claim C1: an open whose post-increment value (`atomic_inc_return`)
equals 1 — equivalently, whose pre-state count is 0 — creates and starts
one worker and stores its handle; an open whose post-increment value
exceeds 1 returns 0 with no worker action; and in any operation sequence
run from the fresh state, two worker-creating opens are separated by a
state whose count is not positive, so at most one worker is started while
the count stays positive. -/
theorem open_worker_gating (s : UdevState) (ok : Bool) :
    (s.refcnt = 0 →
      macb_uio_open true s =
        (0, { refcnt := 1, poll_task := some (Handle.task true) })) ∧
    (s.refcnt ≠ 0 →
      (macb_uio_open ok s).1 = 0 ∧
      (macb_uio_open ok s).2.refcnt = s.refcnt + 1 ∧
      (macb_uio_open ok s).2.poll_task = s.poll_task) ∧
    (∀ ops : List Op, ∀ i j : Nat, i < j →
      createsWorkerAt ops i = true → createsWorkerAt ops j = true →
      ∃ k, i < k ∧ k ≤ j ∧ (stateAt ops k).refcnt ≤ 0) := by
  refine ⟨?_, ?_, ?_⟩
  · intro h
    simp [macb_uio_open, h]
  · intro h
    have h1 : s.refcnt + 1 ≠ 1 := by omega
    simp [macb_uio_open, h1]
  · intro ops i j hij _ hj
    refine ⟨j, hij, le_refl j, ?_⟩
    unfold createsWorkerAt at hj
    simp only [Bool.and_eq_true, decide_eq_true_eq] at hj
    exact hj.2.le

/-- Witness for C1: the first open from the fresh state stores a running
worker handle. -/
theorem open_worker_gating_witness :
    macb_uio_open true initState =
      (0, { refcnt := 1, poll_task := some (Handle.task true) }) :=
  (open_worker_gating initState true).1 rfl

/-! Claim C2 -/

/-- Claim C2 counterexample: `macb_uio_release` on the fresh (count 0)
state returns 0 — success, not a `NotOpen` error — and drives the count to
-1, so the claim as stated is false on the code. -/
theorem close_at_zero_cex :
    macb_uio_release initState = (0, { refcnt := -1, poll_task := none }) ∧
    (macb_uio_release initState).2.refcnt < 0 := by decide

/-- Claim C2 (amended): a close at a non-positive count returns success
(0), performs no worker action, and decrements the count further, so
excess closes drive the count negative without any error. -/
theorem close_at_zero_amended (s : UdevState) (h : s.refcnt ≤ 0) :
    macb_uio_release s = (0, { s with refcnt := s.refcnt - 1 }) := by
  have h1 : ¬ (s.refcnt - 1 = 0) := by omega
  simp [macb_uio_release, h1]

/-- Witness for the amended C2 at the fresh state. -/
theorem close_at_zero_amended_witness :
    macb_uio_release initState =
      (0, { initState with refcnt := initState.refcnt - 1 }) :=
  close_at_zero_amended initState (by decide)

/-! Claim C3 -/

/-- Claim C3 counterexample: after open() then close() the count is 0 and
the worker has been stopped, but `poll_task` still holds the stopped task:
the handle is not cleared, contradicting the claim. -/
theorem close_handle_not_cleared_cex :
    runOps [Op.openCall true, Op.closeCall] initState =
      { refcnt := 0, poll_task := some (Handle.task false) } ∧
    (runOps [Op.openCall true, Op.closeCall] initState).poll_task.isSome
      = true := by
  decide

/-- Claim C3 (amended): close at a positive count returns 0 and decrements
the count; at post-decrement 0 it stops and joins the stored worker but
leaves the handle stored (pointer presence preserved); at post-decrement
greater than 0 it takes no worker action. -/
theorem close_positive_amended (s : UdevState) (h : 0 < s.refcnt) :
    (macb_uio_release s).1 = 0 ∧
    (macb_uio_release s).2.refcnt = s.refcnt - 1 ∧
    (s.refcnt = 1 →
      (macb_uio_release s).2.poll_task = kthread_stop s.poll_task ∧
      ((macb_uio_release s).2.poll_task).isSome = s.poll_task.isSome) ∧
    (1 < s.refcnt → (macb_uio_release s).2.poll_task = s.poll_task) := by
  by_cases h1 : s.refcnt - 1 = 0
  · refine ⟨by simp [macb_uio_release, h1], by simp [macb_uio_release, h1],
      ?_, ?_⟩
    · intro _
      exact ⟨by simp [macb_uio_release, h1],
        by simp [macb_uio_release, h1, kthread_stop_isSome]⟩
    · intro h2
      omega
  · refine ⟨by simp [macb_uio_release, h1], by simp [macb_uio_release, h1],
      ?_, ?_⟩
    · intro h2
      omega
    · intro _
      simp [macb_uio_release, h1]

/-- Witness for the amended C3 at a single-consumer state with a running
worker. -/
theorem close_positive_amended_witness :
    (macb_uio_release { refcnt := 1, poll_task := some (Handle.task true) }).1
      = 0 :=
  (close_positive_amended
    { refcnt := 1, poll_task := some (Handle.task true) } (by decide)).1

/-! Claim C4 -/

/-- Claim C4 counterexample: the state reached by open() then close() has
reference count 0 yet still holds the (stopped) worker handle, refuting
the claimed handle-present-iff-count-positive invariant. -/
theorem invariant_handle_cex :
    (runOps [Op.openCall true, Op.closeCall] initState).refcnt = 0 ∧
    (runOps [Op.openCall true, Op.closeCall] initState).poll_task =
      some (Handle.task false) := by
  decide

/-- Claim C4 (amended): in every state reachable from the fresh state by
an open/close sequence whose worker creations all succeed, the worker is
RUNNING if and only if the reference count is strictly positive; the
stored handle itself is never cleared once set, so handle presence does
not track positivity. -/
theorem running_iff_positive (ops : List Op)
    (h : allCreatesOk ops = true) :
    workerRunning (runOps ops initState) = true ↔
      0 < (runOps ops initState).refcnt :=
  running_inv ops initState h (by decide)

/-- Witness for the amended C4 on the one-open sequence. -/
theorem running_iff_positive_witness :
    workerRunning (runOps [Op.openCall true] initState) = true ↔
      0 < (runOps [Op.openCall true] initState).refcnt :=
  running_iff_positive [Op.openCall true] (by decide)

/-! Claim C5 -/

/-- Claim C5 counterexample: a descriptor whose single present slot fails
to map still contributes that slot as a region (with NULL mapped pointer)
and setup succeeds — the slot is not skipped and `NoResource` is not
returned, so the claim as stated is false on the code. -/
theorem setup_mapfail_not_skipped_cex :
    macb_uio_setup_iomem (fun _ _ => none)
      [some { start := 0, size := 1 }, none, none, none, none] =
      Except.ok [{ memtype := UIO_MEM_PHYS, addr := 0, size := PAGE_SIZE,
                   name := "macb_regs", internal_addr := none }] := by
  rfl

/-- Claim C5 (amended): a present slot whose map call fails is not
skipped — setup records one region per present slot whatever the mapper
returns — and setup fails with `-ENOENT` (NoResource) exactly when no
present slot exists at all. -/
theorem setup_noresource_amended (f : Nat → Nat → Option Nat)
    (slots : List (Option Resource)) :
    (macb_uio_setup_iomem f slots = Except.error (-ENOENT) ↔
      slots.filterMap id = []) ∧
    (∀ mems, macb_uio_setup_iomem f slots = Except.ok mems →
      mems.length = (slots.filterMap id).length) := by
  constructor
  · unfold macb_uio_setup_iomem
    by_cases hL : setupLoop f slots = []
    · have h2 : slots.filterMap id = [] := by
        have hmap := setupLoop_eq_map f slots
        rw [hL] at hmap
        simpa using hmap.symm
      have hlen : ¬ ((setupLoop f slots).length ≠ 0) := by simp [hL]
      simp [hlen, h2]
    · have h2 : ¬ slots.filterMap id = [] := by
        intro hc
        apply hL
        rw [setupLoop_eq_map, hc]
        rfl
      have hlen : (setupLoop f slots).length ≠ 0 := by
        simpa [List.length_eq_zero] using hL
      simp [hlen, h2]
  · intro mems hm
    obtain ⟨he, -⟩ := (setup_ok_iff f slots mems).mp hm
    rw [← he, setupLoop_length]

/-- Witness for the amended C5: an all-absent descriptor yields
`-ENOENT`. -/
theorem setup_noresource_amended_witness :
    macb_uio_setup_iomem (fun a _ => some a) [(none : Option Resource)] =
      Except.error (-ENOENT) :=
  ((setup_noresource_amended (fun a _ => some a) [none]).1).mpr rfl

/-! Claim C6 -/

/-- Claim C6 counterexample: teardown leaves the mapped pointers in
place, so a second teardown on the sequence the first one leaves behind
performs the very same `iounmap` call again — one unmap, not zero —
refuting the claimed idempotence. -/
theorem teardown_not_idempotent_cex :
    (macb_uio_release_iomem
      (macb_uio_release_iomem
        [{ memtype := 1, addr := 0, size := 4096, name := "macb_regs",
           internal_addr := some 7 }]).2).1 = [7] ∧
    (macb_uio_release_iomem
        [{ memtype := 1, addr := 0, size := 4096, name := "macb_regs",
           internal_addr := some 7 }]).1 = [7] := by
  decide

/-- Claim C6 (amended): teardown unmaps exactly the regions whose mapped
pointer is non-null (a region with no mapped pointer is a no-op), but it
leaves the region sequence — pointers included — unchanged, so a second
teardown on the resulting sequence repeats exactly the same unmaps rather
than performing none: teardown is not idempotent. -/
theorem teardown_amended (mems : List UioMem) :
    (macb_uio_release_iomem mems).1 = mems.filterMap UioMem.internal_addr ∧
    (macb_uio_release_iomem mems).2 = mems ∧
    macb_uio_release_iomem (macb_uio_release_iomem mems).2 =
      macb_uio_release_iomem mems :=
  ⟨release_iomem_fst mems, release_iomem_snd mems, by rw [release_iomem_snd]⟩

/-! Claim C7 -/

/-- Claim C7 counterexample: removing a device whose reference count is 0
still invokes close (`macb_uio_release` appears in the removal's action
sequence), contradicting the claim that teardown proceeds to
unregister/unmap without invoking close when the count is 0. -/
theorem remove_at_zero_closes_cex :
    Action.closeCall ∈
      (macb_uio_remove (some { mem := [], session := initState })).2 := by
  decide

/-- Claim C7 (amended): removal with driver data attached always invokes
exactly one close, whatever the reference count; when the count is 0 that
forced close decrements it to -1 and takes no worker action, before the
device is unregistered and its regions unmapped. -/
theorem remove_always_closes_amended (udev : Udev) :
    Action.closeCall ∈ (macb_uio_remove (some udev)).2 ∧
    (udev.session.refcnt = 0 →
      (macb_uio_release udev.session).2.refcnt = -1 ∧
      (macb_uio_release udev.session).2.poll_task =
        udev.session.poll_task) := by
  constructor
  · simp [macb_uio_remove]
  · intro h
    have h1 : ¬ (udev.session.refcnt - 1 = 0) := by omega
    constructor
    · simp [macb_uio_release, h1, h]
    · simp [macb_uio_release, h1]

/-- Witness for the amended C7 on a device with count 0. -/
theorem remove_always_closes_amended_witness :
    (macb_uio_release initState).2.refcnt = -1 :=
  ((remove_always_closes_amended { mem := [], session := initState }).2
    rfl).1

/-! Claim C8 -/

/-- Claim C8: whenever setup succeeds, there is one region per present
slot, the i-th region's physical base is the i-th present slot's start
truncated down to the page boundary and its size the slot's size rounded
up to a page multiple (consecutive indices in descriptor order), and the
2-present / 1-absent scenario yields exactly 2 regions. -/
theorem setup_region_layout (f : Nat → Nat → Option Nat)
    (slots : List (Option Resource)) (mems : List UioMem)
    (h : macb_uio_setup_iomem f slots = Except.ok mems) :
    mems.length = (slots.filterMap id).length ∧
    (∀ i : Nat, ∀ hi : i < mems.length,
      ∀ hp : i < (slots.filterMap id).length,
      (mems.get ⟨i, hi⟩).addr =
        pageTrunc (((slots.filterMap id).get ⟨i, hp⟩).start) ∧
      (mems.get ⟨i, hi⟩).size =
        pageAlign (((slots.filterMap id).get ⟨i, hp⟩).size)) ∧
    (macb_uio_setup_iomem f
        [some { start := 0, size := 1 }, none,
         some { start := 2 * PAGE_SIZE + 5, size := PAGE_SIZE + 1 }]).map
      List.length = Except.ok 2 := by
  obtain ⟨hm, -⟩ := (setup_ok_iff f slots mems).mp h
  subst hm
  refine ⟨setupLoop_length f slots, ?_, ?_⟩
  · intro i hi hp
    rw [setupLoop_get f slots i hi hp]
    exact ⟨rfl, rfl⟩
  · have hsc : setupLoop f
        [some { start := 0, size := 1 }, none,
         some { start := 2 * PAGE_SIZE + 5, size := PAGE_SIZE + 1 }] =
      [mkMem f { start := 0, size := 1 },
       mkMem f { start := 2 * PAGE_SIZE + 5, size := PAGE_SIZE + 1 }] := rfl
    simp [macb_uio_setup_iomem, hsc, Except.map]

/-- Witness for C8 on a one-slot descriptor with a succeeding mapper. -/
theorem setup_region_layout_witness :
    ([{ memtype := UIO_MEM_PHYS, addr := 0, size := PAGE_SIZE,
        name := "macb_regs", internal_addr := some 0 }] : List UioMem).length
      =
      ([some { start := 0, size := 1 }].filterMap
        (id : Option Resource → Option Resource)).length :=
  (setup_region_layout (fun a _ => some a) [some { start := 0, size := 1 }]
    [{ memtype := UIO_MEM_PHYS, addr := 0, size := PAGE_SIZE,
       name := "macb_regs", internal_addr := some 0 }] rfl).1

/-! Claim C9 -/

/-- Claim C9 counterexample: when `kthread_create` fails on the 0→1 open,
`macb_uio_open` still returns 0 — success, not an error result — so the
propagation part of the claim is false (the count is indeed left
incremented). -/
theorem open_create_fail_cex :
    macb_uio_open false initState =
      (0, { refcnt := 1, poll_task := some Handle.errPtr }) := by decide

/-- Claim C9 (amended): worker-creation failure on the 0→1 transition is
never inspected: open() stores the failed-creation value in the handle
field, returns success (0) to its caller, and the reference count is left
incremented. -/
theorem open_create_fail_amended (s : UdevState) (h : s.refcnt = 0) :
    macb_uio_open false s =
      (0, { refcnt := s.refcnt + 1, poll_task := some Handle.errPtr }) ∧
    (macb_uio_open false s).2.refcnt = 1 := by
  constructor
  · simp [macb_uio_open, h]
  · simp [macb_uio_open, h]

/-- Witness for the amended C9 at the fresh state. -/
theorem open_create_fail_amended_witness :
    (macb_uio_open false initState).2.refcnt = 1 :=
  (open_create_fail_amended initState rfl).2

/-! Claim C10 -/

/-- Claim C10: removal with no stored driver data returns `-EINVAL` and
performs no teardown action at all — nothing is closed, unregistered,
unmapped, or freed. -/
theorem remove_no_drvdata : macb_uio_remove none = (-EINVAL, []) := rfl

end MacbUio
